import Mathlib

/-!
Shallow embedding of the event relay in `internal/app/app.go` of
stickpro/tg-message-watcher, together with proofs about its handlers,
backfill paginator and webhook dispatcher.

The Telegram API (gotd) and the HTTP client are external collaborators:
they are modelled as functions supplied in an `Env` record, and the
side effects of the code (API calls, webhook POSTs) are returned as
explicit traces.  Go runtime panics (nil dereference, failed unchecked
type assertion) are modelled as an explicit `panic` outcome.
-/

namespace TgWatcher

/-- `tg.PeerClass`: the peer reference stored in a message
(`tg.PeerUser`, `tg.PeerChat`, `tg.PeerChannel`). -/
inductive Peer
  | user (userID : Int)
  | chat (chatID : Int)
  | channel (channelID : Int)
deriving DecidableEq, Repr

/-- `tg.Message` (plain message): the fields the program reads —
`ID` (`GetID`), `PeerID` (`GetPeerID`) and `Message` (`GetMessage`). -/
structure Message where
  id : Int
  peerID : Peer
  message : String
deriving DecidableEq, Repr

/-- `tg.MessageClass`: the union over `MessageEmpty`, `Message`,
`MessageService` delivered in updates and history pages. -/
inductive MessageClass
  | messageEmpty (id : Int)
  | message (m : Message)
  | messageService (id : Int) (peerID : Peer)
deriving DecidableEq, Repr

/-- `tg.Channel`: the fields the program reads (`ID`/`GetID`, `AccessHash`). -/
structure Channel where
  id : Int
  accessHash : Int
deriving DecidableEq, Repr

/-- `tg.ChatClass`: the union returned by `ChannelsGetChannels().GetChats()`.
Only the `Channel` variant passes the `.(*tg.Channel)` type assertion. -/
inductive ChatClass
  | chatEmpty (id : Int)
  | chat (id : Int)
  | chatForbidden (id : Int)
  | channel (c : Channel)
  | channelForbidden (id : Int)
deriving DecidableEq, Repr

/-- The part of `config.Config` the handlers read:
`cfg.TgApp.ChatForWatch` and `cfg.TgApp.WebhookUrl`. -/
structure Config where
  chatForWatch : Int
  webhookUrl : String
deriving DecidableEq, Repr

/-- One webhook HTTP request as built by `sendMessage`: the URL, the
content type passed to `http.Post`, and the JSON object of the body as
a key/value list (Go `json.Marshal` of a `map[string]string` renders the
keys in sorted order: `external_id`, `text`, `type`). -/
structure WebhookRequest where
  url : String
  contentType : String
  body : List (String × String)
deriving DecidableEq, Repr

/-- Outcome of one `http.Post` call: a transport error, or a response
with a status code. -/
inductive PostResult
  | netError (msg : String)
  | response (statusCode : Nat)
deriving DecidableEq, Repr

/-- The error `sendMessage` returns: the transport error passed through,
or `unexpected status code: %d` for a non-200 response. -/
inductive DeliveryError
  | network (msg : String)
  | unexpectedStatus (code : Nat)
deriving DecidableEq, Repr

/-- Outcome of one `MessagesGetHistory` call: an API error, a result that
is not `*tg.MessagesChannelMessages` (the unchecked branch at the
`history, ok := messages.(*tg.MessagesChannelMessages)` assertion), or a
page of entries. -/
inductive HistoryResult
  | apiError (msg : String)
  | notChannelMessages
  | channelMessages (msgs : List MessageClass)
deriving DecidableEq, Repr

/-- The external collaborators: `ChannelsGetChannels` (keyed by the
requested channel ID; the program always passes `AccessHash: 0`),
`MessagesGetHistory` (keyed by `OffsetID` and `Limit`; the peer is fixed
for a run), and `http.Post`. -/
structure Env where
  channelsGetChannels : Int → Except String (List ChatClass)
  messagesGetHistory : Int → Nat → HistoryResult
  post : WebhookRequest → PostResult

/-- The JSON body `sendMessage` marshals:
`map[string]string{"text": text, "type": messageType, "external_id": strconv.Itoa(messageID)}`,
with keys in the sorted order `json.Marshal` emits for maps. -/
def postRequest (text webHookUrl messageType : String) (messageID : Int) : WebhookRequest :=
  { url := webHookUrl
    contentType := "application/json"
    body := [("external_id", toString messageID), ("text", text), ("type", messageType)] }

/-- `sendMessage` from app.go: marshal the body, POST it once, pass a
transport error through, and turn any non-200 status into an error.
Returns the list of POSTs issued (always exactly one) and the result. -/
def sendMessage (env : Env) (text webHookUrl messageType : String) (messageID : Int) :
    List WebhookRequest × Except DeliveryError Unit :=
  let req := postRequest text webHookUrl messageType messageID
  match env.post req with
  | .netError e => ([req], Except.error (.network e))
  | .response code =>
      if code = 200 then ([req], Except.ok ())
      else ([req], Except.error (.unexpectedStatus code))

/-- `getChannel` from app.go: one `ChannelsGetChannels` call with the
given ID (and `AccessHash: 0`); error when the call errors, when the
returned chat list is empty, or when its first entry is not a
`*tg.Channel`; otherwise the first entry.  The first component is the
trace of API calls made (always exactly the one call). -/
def getChannel (env : Env) (channelID : Int) : List Int × Except String Channel :=
  match env.channelsGetChannels channelID with
  | .error e => ([channelID], Except.error ("failed to fetch channel: " ++ e))
  | .ok chats =>
    match chats with
    | [] => ([channelID], Except.error "no channels found")
    | c :: _ =>
      match c with
      | .channel ch => ([channelID], Except.ok ch)
      | _ => ([channelID], Except.error "unexpected chat type")

/-- Side effects of one handler invocation: the channel IDs passed to
`getChannel` and the webhook POSTs issued. -/
structure HandlerTrace where
  resolves : List Int
  posts : List WebhookRequest
deriving DecidableEq, Repr

/-- How a handler invocation ends.  `panic` models a Go runtime panic:
`msg, _ := update.GetMessage().(*tg.Message)` leaves `msg = nil` when the
payload is not a plain `*tg.Message`, and the following
`msg.GetPeerID()` dereferences the nil receiver; likewise the unchecked
`.(*tg.PeerChannel)` assertion panics when the peer is not a channel. -/
inductive HandlerResult
  | panic
  | errored (e : String)
  | ok
deriving DecidableEq, Repr

/-- `handleNewChannelMessage` from app.go.  The send error is only
logged (`log.Error`), never returned: the handler returns `nil` whether
or not the webhook delivery succeeded. -/
def handleNewChannelMessage (env : Env) (cfg : Config) (updateMessage : MessageClass) :
    HandlerTrace × HandlerResult :=
  match updateMessage with
  | .message msg =>
    match msg.peerID with
    | .channel channelID =>
      match getChannel env channelID with
      | (calls, .error e) => ({ resolves := calls, posts := [] }, .errored e)
      | (calls, .ok channel) =>
        if channel.id = cfg.chatForWatch then
          let sent := sendMessage env msg.message cfg.webhookUrl "newMessage" msg.id
          ({ resolves := calls, posts := sent.1 }, .ok)
        else
          ({ resolves := calls, posts := [] }, .ok)
    | _ => ({ resolves := [], posts := [] }, .panic)
  | _ => ({ resolves := [], posts := [] }, .panic)

/-- `handleEditChannelMessage` from app.go: identical control flow to
`handleNewChannelMessage`, with message type `"editMessage"`. -/
def handleEditChannelMessage (env : Env) (cfg : Config) (updateMessage : MessageClass) :
    HandlerTrace × HandlerResult :=
  match updateMessage with
  | .message msg =>
    match msg.peerID with
    | .channel channelID =>
      match getChannel env channelID with
      | (calls, .error e) => ({ resolves := calls, posts := [] }, .errored e)
      | (calls, .ok channel) =>
        if channel.id = cfg.chatForWatch then
          let sent := sendMessage env msg.message cfg.webhookUrl "editMessage" msg.id
          ({ resolves := calls, posts := sent.1 }, .ok)
        else
          ({ resolves := calls, posts := [] }, .ok)
    | _ => ({ resolves := [], posts := [] }, .panic)
  | _ => ({ resolves := [], posts := [] }, .panic)

/-- The inner loop of `fetchAndProcessMessages` over one history page:
entries that are not `*tg.Message` are skipped (`continue`); each plain
message is sent as `"oldMessage"`, a send error being only logged. -/
def processPage (env : Env) (cfg : Config) : List MessageClass → List WebhookRequest
  | [] => []
  | .message m :: rest =>
      (sendMessage env m.message cfg.webhookUrl "oldMessage" m.id).1 ++ processPage env cfg rest
  | _ :: rest => processPage env cfg rest

/-- Side effects of one backfill run: the `OffsetID`s passed to
`MessagesGetHistory` in order, and the webhook POSTs issued. -/
structure BackfillTrace where
  fetches : List Int
  posts : List WebhookRequest
deriving DecidableEq, Repr

/-- How the backfill loop ends.  `outOfFuel` is a model artifact (the Go
`for` loop has no fuel); `panic` models the unchecked
`history.Messages[len-1].(*tg.Message)` assertion at the cursor advance
failing on a non-plain last entry of a full page. -/
inductive BackfillResult
  | outOfFuel
  | panic
  | errored (e : String)
  | done
deriving DecidableEq, Repr

/-- The `for` loop of `fetchAndProcessMessages`: fetch a page of up to
100 entries at the cursor, process its entries, stop when the page has
fewer than 100 entries, otherwise advance the cursor to the ID of the
page's last (oldest) entry and continue.  `fuel` bounds the number of
iterations the model may take. -/
def backfillLoop (env : Env) (cfg : Config) : Nat → Int → BackfillTrace × BackfillResult
  | 0, _ => ({ fetches := [], posts := [] }, .outOfFuel)
  | fuel + 1, offsetID =>
    match env.messagesGetHistory offsetID 100 with
    | .apiError e => ({ fetches := [offsetID], posts := [] }, .errored e)
    | .notChannelMessages =>
        ({ fetches := [offsetID], posts := [] }, .errored "unexpected messages type")
    | .channelMessages msgs =>
      let posts := processPage env cfg msgs
      if msgs.length < 100 then
        ({ fetches := [offsetID], posts := posts }, .done)
      else
        match msgs.getLast? with
        | some (.message m) =>
          let next := backfillLoop env cfg fuel m.id
          ({ fetches := offsetID :: next.1.fetches, posts := posts ++ next.1.posts }, next.2)
        | _ => ({ fetches := [offsetID], posts := posts }, .panic)

/-- Side effects and outcome of one `fetchAndProcessMessages` run. -/
structure RunTrace where
  resolves : List Int
  backfill : BackfillTrace
  result : BackfillResult
deriving DecidableEq, Repr

/-- `fetchAndProcessMessages` from app.go: resolve the watched channel
once, then run the pagination loop from `offsetID := 0`. -/
def fetchAndProcessMessages (env : Env) (cfg : Config) (fuel : Nat) : RunTrace :=
  match getChannel env cfg.chatForWatch with
  | (calls, .error e) => { resolves := calls, backfill := { fetches := [], posts := [] }, result := .errored e }
  | (calls, .ok _channel) =>
    let r := backfillLoop env cfg fuel 0
    { resolves := calls, backfill := r.1, result := r.2 }

/-- One live update as dispatched by the gotd update dispatcher to the
two registered handlers. -/
inductive LiveUpdate
  | newChannelMessage (u : MessageClass)
  | editChannelMessage (u : MessageClass)
deriving DecidableEq, Repr

/-- Dispatch of one live update to the registered handler. -/
def dispatchUpdate (env : Env) (cfg : Config) : LiveUpdate → HandlerTrace × HandlerResult
  | .newChannelMessage u => handleNewChannelMessage env cfg u
  | .editChannelMessage u => handleEditChannelMessage env cfg u

/-- A run of the live stream: updates are handled in order; a handler
panic crashes the process and an error aborts the dispatch loop, so in
either case no later update is processed.  Returns the concatenated
trace and whether the run was cut short. -/
def processLiveEvents (env : Env) (cfg : Config) : List LiveUpdate → HandlerTrace × Bool
  | [] => ({ resolves := [], posts := [] }, false)
  | e :: rest =>
    match dispatchUpdate env cfg e with
    | (t, .panic) => (t, true)
    | (t, .errored _) => (t, true)
    | (t, .ok) =>
      let r := processLiveEvents env cfg rest
      ({ resolves := t.resolves ++ r.1.resolves, posts := t.posts ++ r.1.posts }, r.2)

/-! ### Model of the external history API over a fixed history

`hist` is the channel's history, newest to oldest, as the Telegram API
returns it: `OffsetID = 0` means "from the most recent", a nonzero
`OffsetID` returns only messages with ID strictly below it, and at most
`limit` entries come back per page. -/

/-- Messages of `hist` older than the cursor (`0` = no cursor). -/
def sel (hist : List Message) (offsetID : Int) : List Message :=
  if offsetID = 0 then hist else hist.filter (fun m => m.id < offsetID)

/-- One history page at the given cursor. -/
def histPage (hist : List Message) (offsetID : Int) (limit : Nat) : List Message :=
  (sel hist offsetID).take limit

/-- The environment induced by a fixed, unchanged history whose entries
are all plain messages. -/
def envOfHist (hist : List Message) (resolve : Int → Except String (List ChatClass))
    (post : WebhookRequest → PostResult) : Env :=
  { channelsGetChannels := resolve
    messagesGetHistory := fun off limit => .channelMessages ((histPage hist off limit).map .message)
    post := post }

/-- History order: newest to oldest, message IDs strictly decreasing. -/
def SDec (l : List Message) : Prop := l.Pairwise (fun a b => b.id < a.id)

/-- All message IDs positive (Telegram message IDs are ≥ 1). -/
def PosIds (l : List Message) : Prop := ∀ m ∈ l, 0 < m.id

instance (l : List Message) : Decidable (PosIds l) := by
  unfold PosIds; infer_instance

/-- One cursor advance of the paginator: the page fetched at cursor `c`
was full, and `c'` is the ID of its last (oldest) entry. -/
def advStep (hist : List Message) (c c' : Int) : Prop :=
  (histPage hist c 100).length = 100 ∧ (histPage hist c 100).getLast?.map Message.id = some c'

instance (hist : List Message) (c c' : Int) : Decidable (advStep hist c c') := by
  unfold advStep; infer_instance

/-- Whether a history entry passes the `message.(*tg.Message)` check of
the backfill inner loop. -/
def isPlainMessage : MessageClass → Bool
  | .message _ => true
  | _ => false

/-! ### Concrete inputs used by witnesses and counterexamples -/

/-- A well-behaved resolver: every lookup returns one channel whose ID is
the requested one. -/
def resolveW : Int → Except String (List ChatClass) :=
  fun cid => .ok [.channel { id := cid, accessHash := 0 }]

/-- A webhook endpoint that always answers HTTP 200. -/
def postOkW : WebhookRequest → PostResult := fun _ => .response 200

/-- A webhook endpoint that always answers HTTP 500. -/
def post500W : WebhookRequest → PostResult := fun _ => .response 500

/-- A benign environment: faithful resolver, empty history, all
deliveries answered 200. -/
def envW : Env :=
  { channelsGetChannels := resolveW
    messagesGetHistory := fun _ _ => .channelMessages []
    post := postOkW }

/-- The benign environment with a webhook that always fails with 500. -/
def env500W : Env := { envW with post := post500W }

/-- A concrete configuration: watch chat `42`. -/
def cfgW : Config := { chatForWatch := 42, webhookUrl := "http://wh" }

/-- A concrete plain message in the watched chat. -/
def mW : Message := { id := 6, peerID := .channel 42, message := "x" }

/-- A 3-message history, newest to oldest. -/
def hist3W : List Message :=
  [{ id := 3, peerID := .channel 42, message := "c" },
   { id := 2, peerID := .channel 42, message := "b" },
   { id := 1, peerID := .channel 42, message := "a" }]

/-- A 100-message history (IDs 100 down to 1), newest to oldest. -/
def hist100W : List Message :=
  (List.range 100).map (fun i => { id := (100 - i : Int), peerID := .channel 42, message := "m" })

/-- A 101-message history (IDs 101 down to 1), newest to oldest. -/
def hist101W : List Message :=
  (List.range 101).map (fun i => { id := (101 - i : Int), peerID := .channel 42, message := "m" })

/-- A full history page of 100 entries whose last (oldest) entry is a
service message. -/
def page100svcW : List MessageClass :=
  ((List.range 99).map
    (fun i => .message { id := (200 - i : Int), peerID := .channel 42, message := "m" }))
  ++ [.messageService 1 (.channel 42)]

/-- An environment whose history API always returns `page100svcW`. -/
def envSvcW : Env :=
  { envW with messagesGetHistory := fun _ _ => .channelMessages page100svcW }

end TgWatcher

namespace TgWatcher

/-! ### Helper lemmas -/

/-- Filtering a strictly-ID-decreasing list by "older than the last
element of its prefix `p`" leaves exactly the part after `p`. -/
theorem filter_lt_getLast : ∀ (p t : List Message) (hp : p ≠ []),
    (p ++ t).Pairwise (fun a b => b.id < a.id) →
    (p ++ t).filter (fun m => m.id < (p.getLast hp).id) = t
  | [], _, hp, _ => absurd rfl hp
  | [a], t, _, hsort => by
      have hlast : ([a].getLast (by simp)).id = a.id := rfl
      rw [List.singleton_append, List.filter_cons]
      rw [if_neg (by simp [hlast])]
      refine List.filter_eq_self.mpr (fun b hb => ?_)
      have hba := (List.pairwise_cons.mp hsort).1 b hb
      simp only [hlast, decide_eq_true_eq]
      exact hba
  | a :: b :: p, t, _, hsort => by
      have hbp : (b :: p : List Message) ≠ [] := by simp
      have hlast : ((a :: b :: p).getLast (by simp)).id = ((b :: p).getLast hbp).id := by
        rw [List.getLast_cons hbp]
      have htail : ((b :: p) ++ t).Pairwise (fun x y => y.id < x.id) :=
        (List.pairwise_cons.mp hsort).2
      have hmem : (b :: p).getLast hbp ∈ (b :: p) ++ t :=
        List.mem_append_left _ (List.getLast_mem hbp)
      have hlt : ((b :: p).getLast hbp).id < a.id :=
        (List.pairwise_cons.mp hsort).1 _ hmem
      rw [List.cons_append, List.filter_cons]
      rw [if_neg (by simp only [hlast, decide_eq_true_eq]; omega)]
      have ih := filter_lt_getLast (b :: p) t hbp htail
      simpa [hlast] using ih

/-- Advancing the cursor to the last ID of a full page selects exactly
the part of the history after that page. -/
theorem sel_getLast_eq (pre p rest' : List Message) (hp : p ≠ [])
    (hsort : (pre ++ (p ++ rest')).Pairwise (fun a b => b.id < a.id))
    (hpos : PosIds (pre ++ (p ++ rest'))) :
    sel (pre ++ (p ++ rest')) ((p.getLast hp).id) = rest' := by
  have hmem : p.getLast hp ∈ pre ++ (p ++ rest') :=
    List.mem_append_right _ (List.mem_append_left _ (List.getLast_mem hp))
  have hposlast : 0 < (p.getLast hp).id := hpos _ hmem
  unfold sel
  rw [if_neg (by omega)]
  rw [List.filter_append]
  have hpre : pre.filter (fun m => m.id < (p.getLast hp).id) = [] := by
    refine List.filter_eq_nil_iff.mpr (fun a ha => ?_)
    have hgt := (List.pairwise_append.mp hsort).2.2 a ha _
      (List.mem_append_left _ (List.getLast_mem hp))
    simp only [decide_eq_true_eq, not_lt]
    omega
  rw [hpre, filter_lt_getLast p rest' hp (List.pairwise_append.mp hsort).2.1,
    List.nil_append]

/-- `sendMessage` issues exactly the one POST it marshals. -/
theorem sendMessage_requests (env : Env) (text url mtype : String) (id : Int) :
    (sendMessage env text url mtype id).1 = [postRequest text url mtype id] := by
  cases h : env.post (postRequest text url mtype id) with
  | netError e => simp [sendMessage, h]
  | response code => by_cases hc : code = 200 <;> simp [sendMessage, h, hc]

/-- A page of plain messages yields one POST per entry. -/
theorem processPage_map_length (env : Env) (cfg : Config) :
    ∀ l : List Message, (processPage env cfg (l.map .message)).length = l.length
  | [] => rfl
  | m :: rest => by
      simp only [List.map_cons, processPage]
      rw [sendMessage_requests]
      simp [processPage_map_length env cfg rest]

/-- A page yields one POST per plain-message entry, whatever the webhook
answers. -/
theorem processPage_length_countP (env : Env) (cfg : Config) :
    ∀ msgs : List MessageClass,
      (processPage env cfg msgs).length = msgs.countP isPlainMessage
  | [] => rfl
  | .message m :: rest => by
      simp only [processPage]
      rw [sendMessage_requests]
      simp [List.countP_cons, isPlainMessage, processPage_length_countP env cfg rest]
  | .messageEmpty i :: rest => by
      simp [processPage, List.countP_cons, isPlainMessage,
        processPage_length_countP env cfg rest]
  | .messageService i pid :: rest => by
      simp [processPage, List.countP_cons, isPlainMessage,
        processPage_length_countP env cfg rest]

/-- `getChannel` always performs its single API call with the requested
ID: the call trace is `[channelID]` whatever the API answers. -/
theorem getChannel_pair (env : Env) (cid : Int) :
    getChannel env cid = ([cid], (getChannel env cid).2) := by
  unfold getChannel
  cases env.channelsGetChannels cid with
  | error e => rfl
  | ok chats =>
    cases chats with
    | nil => rfl
    | cons c cs => cases c <;> rfl

/-- `getChannel` succeeds when the returned chat list starts with a
channel. -/
theorem getChannel_ok_of (env : Env) (cid : Int) (ch : Channel) (rest : List ChatClass)
    (h : env.channelsGetChannels cid = .ok (.channel ch :: rest)) :
    (getChannel env cid).2 = .ok ch := by
  simp [getChannel, h]

end TgWatcher

namespace TgWatcher

/-- Behavior of `handleNewChannelMessage` on a plain message with a
channel peer, as a function of the resolution result. -/
theorem handleNew_char (env : Env) (cfg : Config) (msg : Message) (cid : Int)
    (hpeer : msg.peerID = .channel cid) :
    handleNewChannelMessage env cfg (.message msg) =
      match (getChannel env cid).2 with
      | .error e => ({ resolves := [cid], posts := [] }, .errored e)
      | .ok channel =>
        if channel.id = cfg.chatForWatch then
          ({ resolves := [cid],
             posts := [postRequest msg.message cfg.webhookUrl "newMessage" msg.id] }, .ok)
        else ({ resolves := [cid], posts := [] }, .ok) := by
  simp only [handleNewChannelMessage, hpeer]
  rw [getChannel_pair env cid]
  cases (getChannel env cid).2 with
  | error e => rfl
  | ok channel =>
    by_cases hid : channel.id = cfg.chatForWatch
    · simp only [if_pos hid]
      rw [sendMessage_requests]
    · simp only [if_neg hid]

/-- Behavior of `handleEditChannelMessage` on a plain message with a
channel peer, as a function of the resolution result. -/
theorem handleEdit_char (env : Env) (cfg : Config) (msg : Message) (cid : Int)
    (hpeer : msg.peerID = .channel cid) :
    handleEditChannelMessage env cfg (.message msg) =
      match (getChannel env cid).2 with
      | .error e => ({ resolves := [cid], posts := [] }, .errored e)
      | .ok channel =>
        if channel.id = cfg.chatForWatch then
          ({ resolves := [cid],
             posts := [postRequest msg.message cfg.webhookUrl "editMessage" msg.id] }, .ok)
        else ({ resolves := [cid], posts := [] }, .ok) := by
  simp only [handleEditChannelMessage, hpeer]
  rw [getChannel_pair env cid]
  cases (getChannel env cid).2 with
  | error e => rfl
  | ok channel =>
    by_cases hid : channel.id = cfg.chatForWatch
    · simp only [if_pos hid]
      rw [sendMessage_requests]
    · simp only [if_neg hid]

/-- When channel resolution succeeds, both handlers return `nil`
whatever the delivery outcome was. -/
theorem handle_ok_and_resolves (env : Env) (cfg : Config) (msg : Message) (cid : Int)
    (ch : Channel) (hpeer : msg.peerID = .channel cid)
    (hres : (getChannel env cid).2 = .ok ch) :
    (handleNewChannelMessage env cfg (.message msg)).2 = .ok
    ∧ (handleEditChannelMessage env cfg (.message msg)).2 = .ok := by
  rw [handleNew_char env cfg msg cid hpeer, handleEdit_char env cfg msg cid hpeer, hres]
  by_cases hid : ch.id = cfg.chatForWatch <;> simp [hid]

/-- Each handler invocation on a plain channel message performs exactly
one channel resolution, with the message's own channel ID. -/
theorem handle_resolves (env : Env) (cfg : Config) (msg : Message) (cid : Int)
    (hpeer : msg.peerID = .channel cid) :
    (handleNewChannelMessage env cfg (.message msg)).1.resolves = [cid]
    ∧ (handleEditChannelMessage env cfg (.message msg)).1.resolves = [cid] := by
  rw [handleNew_char env cfg msg cid hpeer, handleEdit_char env cfg msg cid hpeer]
  cases (getChannel env cid).2 with
  | error e => simp
  | ok ch => by_cases hid : ch.id = cfg.chatForWatch <;> simp [hid]

/-- One unfolding of the backfill loop: short page, the loop stops. -/
theorem backfillLoop_short (env : Env) (cfg : Config) (fuel : Nat) (off : Int)
    (msgs : List MessageClass) (h : env.messagesGetHistory off 100 = .channelMessages msgs)
    (hlen : msgs.length < 100) :
    backfillLoop env cfg (fuel + 1) off
      = ({ fetches := [off], posts := processPage env cfg msgs }, .done) := by
  simp only [backfillLoop, h]
  rw [if_pos hlen]

/-- One unfolding of the backfill loop: full page ending in a plain
message, the cursor advances to its ID. -/
theorem backfillLoop_full (env : Env) (cfg : Config) (fuel : Nat) (off : Int)
    (msgs : List MessageClass) (m : Message)
    (h : env.messagesGetHistory off 100 = .channelMessages msgs)
    (hlen : ¬ msgs.length < 100) (hlast : msgs.getLast? = some (.message m)) :
    backfillLoop env cfg (fuel + 1) off
      = ({ fetches := off :: (backfillLoop env cfg fuel m.id).1.fetches,
           posts := processPage env cfg msgs ++ (backfillLoop env cfg fuel m.id).1.posts },
         (backfillLoop env cfg fuel m.id).2) := by
  simp only [backfillLoop, h]
  rw [if_neg hlen, hlast]

end TgWatcher

namespace TgWatcher

/-- Complete run of the backfill loop over the page model of a fixed
strictly-decreasing, positive-ID history: starting from a cursor whose
selection is the suffix `rest` of the history, the loop finishes with
`done`, fetches `rest.length / 100 + 1` pages, its cursor trace is
strictly decreasing and advances by full pages, and it posts one webhook
request per message of `rest`. -/
theorem backfillLoop_run (hist : List Message) (resolve : Int → Except String (List ChatClass))
    (post : WebhookRequest → PostResult) (cfg : Config) :
    ∀ (fuel : Nat) (off : Int) (rest : List Message),
      hist.Pairwise (fun a b => b.id < a.id) → PosIds hist →
      rest.IsSuffix hist → sel hist off = rest →
      rest.length / 100 + 1 ≤ fuel →
      ∃ tl,
        (backfillLoop (envOfHist hist resolve post) cfg fuel off).1.fetches = off :: tl
        ∧ (backfillLoop (envOfHist hist resolve post) cfg fuel off).2 = .done
        ∧ tl.length = rest.length / 100
        ∧ (off ≠ 0 → ∀ x ∈ tl, x < off)
        ∧ tl.Chain' (fun a b => b < a)
        ∧ (off :: tl).Chain' (advStep hist)
        ∧ (backfillLoop (envOfHist hist resolve post) cfg fuel off).1.posts.length
            = rest.length := by
  intro fuel
  induction fuel with
  | zero => intro off rest _ _ _ _ hfuel; omega
  | succ fuel ih =>
    intro off rest hsort hpos hsuf hsel hfuel
    have hh : (envOfHist hist resolve post).messagesGetHistory off 100
        = .channelMessages ((histPage hist off 100).map .message) := rfl
    have hpage : histPage hist off 100 = rest.take 100 := by
      unfold histPage; rw [hsel]
    by_cases hlen : rest.length < 100
    · have htake : rest.take 100 = rest := List.take_of_length_le (by omega)
      have hmlen : ((histPage hist off 100).map MessageClass.message).length < 100 := by
        rw [hpage, htake, List.length_map]; exact hlen
      have heq := backfillLoop_short (envOfHist hist resolve post) cfg fuel off _ hh hmlen
      refine ⟨[], ?_, ?_, ?_, ?_, ?_, ?_, ?_⟩
      · rw [heq]
      · rw [heq]
      · simp [Nat.div_eq_of_lt hlen]
      · intro _ x hx; simp at hx
      · exact List.chain'_nil
      · exact List.chain'_singleton off
      · rw [heq, hpage, htake]
        exact processPage_map_length _ _ rest
    · set p := rest.take 100 with hpdef
      set rest' := rest.drop 100 with hrdef
      have hplen : p.length = 100 := by
        rw [hpdef, List.length_take]; omega
      have hpne : p ≠ [] := by
        intro hnil; rw [hnil] at hplen; simp at hplen
      set m := p.getLast hpne with hmdef
      have hsplit : p ++ rest' = rest := List.take_append_drop 100 rest
      obtain ⟨pre, hpre⟩ := hsuf
      have hhist : hist = pre ++ (p ++ rest') := by rw [hsplit, hpre]
      have hmlen : (((histPage hist off 100).map MessageClass.message)).length = 100 := by
        rw [hpage, List.length_map]; exact hplen
      have hlast : ((histPage hist off 100).map MessageClass.message).getLast?
          = some (.message m) := by
        rw [hpage, List.getLast?_map, List.getLast?_eq_getLast_of_ne_nil hpne]
        rfl
      have hsel' : sel hist m.id = rest' := by
        rw [hhist]
        exact sel_getLast_eq pre p rest' hpne (by rw [← hhist]; exact hsort)
          (by rw [← hhist]; exact hpos)
      have hsuf' : rest'.IsSuffix hist := by
        rw [hrdef]
        exact (List.drop_suffix 100 rest).trans ⟨pre, hpre⟩
      have hrl : rest.length = rest'.length + 100 := by
        rw [hrdef]; have := List.length_drop 100 rest; omega
      have hdiv : rest.length / 100 = rest'.length / 100 + 1 := by
        rw [hrl, Nat.add_div_right _ (by norm_num)]
      have hfuel' : rest'.length / 100 + 1 ≤ fuel := by omega
      obtain ⟨tl', h1, h2, h3, h4, h5, h6, h7⟩ :=
        ih m.id rest' hsort hpos hsuf' hsel' hfuel'
      have hmm : m ∈ rest := List.take_subset 100 rest (List.getLast_mem hpne)
      have hmhist : m ∈ hist := List.IsSuffix.subset ⟨pre, hpre⟩ hmm
      have hmpos : 0 < m.id := hpos m hmhist
      have heq := backfillLoop_full (envOfHist hist resolve post) cfg fuel off _ m hh
        (by omega) hlast
      refine ⟨m.id :: tl', ?_, ?_, ?_, ?_, ?_, ?_, ?_⟩
      · rw [heq]; simp only []; rw [h1]
      · rw [heq]; exact h2
      · simp only [List.length_cons]; omega
      · intro hoff x hx
        have hfilter : hist.filter (fun x => x.id < off) = rest := by
          unfold sel at hsel; rw [if_neg hoff] at hsel; exact hsel
        have hmlt : m.id < off := by
          have hmf : m ∈ hist.filter (fun x => x.id < off) := by
            rw [hfilter]; exact hmm
          have := (List.mem_filter.mp hmf).2
          simpa using this
        rcases List.mem_cons.mp hx with hx | hx
        · omega
        · have := h4 (by omega) x hx; omega
      · refine List.chain'_cons'.mpr ⟨?_, h5⟩
        intro y hy
        have := h4 (by omega) y (List.mem_of_mem_head? hy)
        omega
      · refine List.chain'_cons'.mpr ⟨?_, h6⟩
        intro y hy
        simp only [List.head?_cons, Option.mem_def, Option.some.injEq] at hy
        subst hy
        refine ⟨?_, ?_⟩
        · rw [hpage, List.length_take]; omega
        · rw [hpage, List.getLast?_eq_getLast_of_ne_nil hpne]
          rfl
      · rw [heq]
        simp only [List.length_append]
        have hpp : (processPage (envOfHist hist resolve post) cfg
            ((histPage hist off 100).map .message)).length = 100 := by
          rw [hpage, processPage_map_length _ _ p]
          exact hplen
        rw [hpp, h7]
        omega

/-- The control flow of the backfill loop (fetch trace and outcome) does
not depend on the webhook's answers. -/
theorem backfillLoop_post_independent (env : Env) (p₁ p₂ : WebhookRequest → PostResult)
    (cfg : Config) :
    ∀ (fuel : Nat) (off : Int),
      (backfillLoop { env with post := p₁ } cfg fuel off).1.fetches
          = (backfillLoop { env with post := p₂ } cfg fuel off).1.fetches
      ∧ (backfillLoop { env with post := p₁ } cfg fuel off).2
          = (backfillLoop { env with post := p₂ } cfg fuel off).2
  | 0, off => ⟨rfl, rfl⟩
  | fuel + 1, off => by
    have e1 : ({ env with post := p₁ } : Env).messagesGetHistory = env.messagesGetHistory := rfl
    have e2 : ({ env with post := p₂ } : Env).messagesGetHistory = env.messagesGetHistory := rfl
    simp only [backfillLoop, e1, e2]
    cases h : env.messagesGetHistory off 100 with
    | apiError e => exact ⟨rfl, rfl⟩
    | notChannelMessages => exact ⟨rfl, rfl⟩
    | channelMessages msgs =>
      by_cases hlen : msgs.length < 100
      · simp only [if_pos hlen]
        exact ⟨trivial, trivial⟩
      · simp only [if_neg hlen]
        cases hl : msgs.getLast? with
        | none => exact ⟨rfl, rfl⟩
        | some c =>
          cases c with
          | message m =>
            have ih := backfillLoop_post_independent env p₁ p₂ cfg fuel m.id
            simp only [List.cons.injEq, true_and]
            exact ⟨ih.1, ih.2⟩
          | messageEmpty i => exact ⟨rfl, rfl⟩
          | messageService i pid => exact ⟨rfl, rfl⟩

/-- When the watched chat resolves, `fetchAndProcessMessages` records
its one resolution and runs the loop from cursor 0. -/
theorem fetchAndProcess_ok (env : Env) (cfg : Config) (fuel : Nat) (ch : Channel)
    (hres : (getChannel env cfg.chatForWatch).2 = .ok ch) :
    fetchAndProcessMessages env cfg fuel
      = { resolves := [cfg.chatForWatch]
          backfill := (backfillLoop env cfg fuel 0).1
          result := (backfillLoop env cfg fuel 0).2 } := by
  unfold fetchAndProcessMessages
  rw [getChannel_pair env cfg.chatForWatch, hres]

/-- A handler run that ends `ok` lets the dispatcher proceed with the
remaining updates. -/
theorem processLiveEvents_cons_ok (env : Env) (cfg : Config) (ev : LiveUpdate)
    (rest : List LiveUpdate) (t : HandlerTrace)
    (h : dispatchUpdate env cfg ev = (t, .ok)) :
    processLiveEvents env cfg (ev :: rest)
      = ({ resolves := t.resolves ++ (processLiveEvents env cfg rest).1.resolves,
           posts := t.posts ++ (processLiveEvents env cfg rest).1.posts },
         (processLiveEvents env cfg rest).2) := by
  simp only [processLiveEvents, h]

end TgWatcher

namespace TgWatcher

/-- C5: for every delivered RelayEvent, the dispatcher issues exactly one
HTTP POST with content type `application/json` whose JSON body carries
`text` (the message text), `type` (the event kind, spelled
`newMessage`/`editMessage`/`oldMessage` at the three call sites), and the
message identifier rendered as a decimal string under the `external_id`
key. -/
theorem c5_wire_format :
    (∀ env text url mtype id,
      (sendMessage env text url mtype id).1 = [postRequest text url mtype id])
    ∧ (∀ text url mtype id,
        (postRequest text url mtype id).contentType = "application/json"
        ∧ (postRequest text url mtype id).url = url
        ∧ (postRequest text url mtype id).body
            = [("external_id", toString id), ("text", text), ("type", mtype)])
    ∧ (∀ env cfg msg cid r, msg.peerID = .channel cid →
        r ∈ (handleNewChannelMessage env cfg (.message msg)).1.posts →
        r = postRequest msg.message cfg.webhookUrl "newMessage" msg.id)
    ∧ (∀ env cfg msg cid r, msg.peerID = .channel cid →
        r ∈ (handleEditChannelMessage env cfg (.message msg)).1.posts →
        r = postRequest msg.message cfg.webhookUrl "editMessage" msg.id)
    ∧ (∀ env cfg msgs r, r ∈ processPage env cfg msgs →
        ∃ m, MessageClass.message m ∈ msgs
          ∧ r = postRequest m.message cfg.webhookUrl "oldMessage" m.id) := by
  refine ⟨fun env text url mtype id => sendMessage_requests env text url mtype id,
    fun text url mtype id => ⟨rfl, rfl, rfl⟩, ?_, ?_, ?_⟩
  · intro env cfg msg cid r hpeer hr
    rw [handleNew_char env cfg msg cid hpeer] at hr
    cases h : (getChannel env cid).2 with
    | error e => rw [h] at hr; simp at hr
    | ok ch =>
      rw [h] at hr
      by_cases hid : ch.id = cfg.chatForWatch
      · simp [hid] at hr; exact hr
      · simp [hid] at hr
  · intro env cfg msg cid r hpeer hr
    rw [handleEdit_char env cfg msg cid hpeer] at hr
    cases h : (getChannel env cid).2 with
    | error e => rw [h] at hr; simp at hr
    | ok ch =>
      rw [h] at hr
      by_cases hid : ch.id = cfg.chatForWatch
      · simp [hid] at hr; exact hr
      · simp [hid] at hr
  · intro env cfg msgs
    induction msgs with
    | nil => intro r hr; simp [processPage] at hr
    | cons c rest ih =>
      intro r hr
      cases c with
      | message m =>
        rw [show processPage env cfg (.message m :: rest)
              = (sendMessage env m.message cfg.webhookUrl "oldMessage" m.id).1
                ++ processPage env cfg rest from rfl,
          sendMessage_requests] at hr
        rcases List.mem_append.mp hr with hr | hr
        · rcases List.mem_singleton.mp hr with rfl
          exact ⟨m, List.mem_cons_self _ _, rfl⟩
        · obtain ⟨m', hm', hr'⟩ := ih r hr
          exact ⟨m', List.mem_cons_of_mem _ hm', hr'⟩
      | messageEmpty i =>
        obtain ⟨m', hm', hr'⟩ := ih r hr
        exact ⟨m', List.mem_cons_of_mem _ hm', hr'⟩
      | messageService i pid =>
        obtain ⟨m', hm', hr'⟩ := ih r hr
        exact ⟨m', List.mem_cons_of_mem _ hm', hr'⟩

/-- C5 witness: concrete instantiation — sending text `Hello` with type
`newMessage` and ID 7 issues exactly the one request, and the request
posted by the new-message handler for a watched-chat message is the
`newMessage` request with its ID. -/
theorem c5_witness :
    (sendMessage envW "Hello" "http://wh" "newMessage" 7).1
        = [postRequest "Hello" "http://wh" "newMessage" 7]
    ∧ postRequest "Hello" cfgW.webhookUrl "newMessage" 7
        = postRequest "Hello" cfgW.webhookUrl "newMessage" 7 := by
  refine ⟨c5_wire_format.1 envW "Hello" "http://wh" "newMessage" 7, ?_⟩
  exact c5_wire_format.2.2.1 envW cfgW
    { id := 7, peerID := .channel 42, message := "Hello" } 42 _ rfl (by decide)

/-- C8: `sendMessage` makes exactly one HTTP attempt per invocation, and
returns a delivery error exactly when the POST suffers a transport error
or the response status is not 200, carrying the status code when one was
received. -/
theorem c8_delivery_error_iff (env : Env) (text url mtype : String) (id : Int) :
    (sendMessage env text url mtype id).1.length = 1
    ∧ ((sendMessage env text url mtype id).2 = Except.ok ()
        ↔ env.post (postRequest text url mtype id) = .response 200)
    ∧ (∀ e, env.post (postRequest text url mtype id) = .netError e
        → (sendMessage env text url mtype id).2 = Except.error (.network e))
    ∧ (∀ c, env.post (postRequest text url mtype id) = .response c → c ≠ 200
        → (sendMessage env text url mtype id).2
            = Except.error (.unexpectedStatus c)) := by
  have hlen : (sendMessage env text url mtype id).1.length = 1 := by
    rw [sendMessage_requests]; rfl
  refine ⟨hlen, ?_, ?_, ?_⟩
  · cases h : env.post (postRequest text url mtype id) with
    | netError e => simp [sendMessage, h]
    | response c => by_cases hc : c = 200 <;> simp [sendMessage, h, hc]
  · intro e he
    simp [sendMessage, he]
  · intro c hc hne
    simp [sendMessage, hc, hne]

/-- C8 witness: against an endpoint that always answers HTTP 500, one
attempt is made and the result is a delivery error carrying code 500. -/
theorem c8_witness :
    (sendMessage env500W "t" "u" "newMessage" 3).1.length = 1
    ∧ (sendMessage env500W "t" "u" "newMessage" 3).2
        = Except.error (.unexpectedStatus 500) :=
  ⟨(c8_delivery_error_iff env500W "t" "u" "newMessage" 3).1,
   (c8_delivery_error_iff env500W "t" "u" "newMessage" 3).2.2.2 500 rfl (by decide)⟩

/-- C9: `getChannel` performs exactly its one API call and returns an
error exactly when the call errors, the chat list is empty, or the first
entity is not a channel; otherwise it returns the first channel. -/
theorem c9_getChannel_spec (env : Env) (cid : Int) :
    (getChannel env cid).1 = [cid]
    ∧ (∀ ch, (getChannel env cid).2 = Except.ok ch
        ↔ ∃ rest, env.channelsGetChannels cid = Except.ok (ChatClass.channel ch :: rest))
    ∧ ((∃ e, (getChannel env cid).2 = Except.error e)
        ↔ ((∃ e, env.channelsGetChannels cid = Except.error e)
            ∨ env.channelsGetChannels cid = Except.ok []
            ∨ (∃ c rest, env.channelsGetChannels cid = Except.ok (c :: rest)
                ∧ ∀ ch, c ≠ ChatClass.channel ch))) := by
  refine ⟨?_, ?_, ?_⟩
  · rw [getChannel_pair]
  · intro ch
    cases h : env.channelsGetChannels cid with
    | error e => simp [getChannel, h]
    | ok chats =>
      cases chats with
      | nil => simp [getChannel, h]
      | cons c cs =>
        cases c <;> simp [getChannel, h]
  · cases h : env.channelsGetChannels cid with
    | error e => simp [getChannel, h]
    | ok chats =>
      cases chats with
      | nil => simp [getChannel, h]
      | cons c cs =>
        cases c <;> simp [getChannel, h]

/-- C9 witness: with the faithful resolver, the call trace is `[7]` and
success is equivalent to the resolver returning a channel-headed list. -/
theorem c9_witness :
    (getChannel envW 7).1 = [7]
    ∧ ((getChannel envW 7).2 = Except.ok { id := 7, accessHash := 0 }
        ↔ ∃ rest, envW.channelsGetChannels 7
            = Except.ok (ChatClass.channel { id := 7, accessHash := 0 } :: rest)) :=
  ⟨(c9_getChannel_spec envW 7).1, (c9_getChannel_spec envW 7).2.1 { id := 7, accessHash := 0 }⟩

end TgWatcher

namespace TgWatcher

/-- C1 counterexample: a live edit event from chat 7 (not the watched
chat 42) whose payload is a service message is not skipped — the handler
panics (nil `*tg.Message` dereference) instead of returning cleanly. -/
theorem c1_counterexample :
    (7 : Int) ≠ cfgW.chatForWatch
    ∧ (handleEditChannelMessage envW cfgW (.messageService 5 (.channel 7))).2 = .panic
    ∧ (handleEditChannelMessage envW cfgW (.messageService 5 (.channel 7))).2
        ≠ .ok := by decide

/-- C1 (amended): for every raw live event whose payload is a plain
message with a channel peer, if that origin chat does not equal the
watched chat ID (and the resolver is faithful: a successful resolution
returns a channel with the requested ID), then neither handler invokes
the Webhook Dispatcher, and neither panics; events with non-plain
payloads instead crash the handler (see C6). -/
theorem c1_amended_no_dispatch_when_chat_differs
    (env : Env) (cfg : Config) (msg : Message) (cid : Int)
    (hpeer : msg.peerID = .channel cid)
    (hfaithful : ∀ ch, (getChannel env cid).2 = .ok ch → ch.id = cid)
    (hne : cid ≠ cfg.chatForWatch) :
    (handleNewChannelMessage env cfg (.message msg)).1.posts = []
    ∧ (handleEditChannelMessage env cfg (.message msg)).1.posts = []
    ∧ (handleNewChannelMessage env cfg (.message msg)).2 ≠ .panic
    ∧ (handleEditChannelMessage env cfg (.message msg)).2 ≠ .panic := by
  rw [handleNew_char env cfg msg cid hpeer, handleEdit_char env cfg msg cid hpeer]
  cases h : (getChannel env cid).2 with
  | error e => simp
  | ok ch =>
    have hid : ch.id ≠ cfg.chatForWatch := by rw [hfaithful ch h]; exact hne
    simp [hid]

/-- C1 witness: a plain message from chat 7 while chat 42 is watched is
skipped by both handlers with no dispatch and no panic. -/
theorem c1_witness :
    (handleNewChannelMessage envW cfgW
        (.message { id := 9, peerID := .channel 7, message := "hi" })).1.posts = []
    ∧ (handleEditChannelMessage envW cfgW
        (.message { id := 9, peerID := .channel 7, message := "hi" })).1.posts = []
    ∧ (handleNewChannelMessage envW cfgW
        (.message { id := 9, peerID := .channel 7, message := "hi" })).2 ≠ .panic
    ∧ (handleEditChannelMessage envW cfgW
        (.message { id := 9, peerID := .channel 7, message := "hi" })).2 ≠ .panic := by
  refine c1_amended_no_dispatch_when_chat_differs envW cfgW
    { id := 9, peerID := .channel 7, message := "hi" } 7 rfl ?_ (by decide)
  intro ch h
  have h' : Except.ok ({ id := 7, accessHash := 0 } : Channel) = Except.ok ch := h
  rw [← Except.ok.inj h']

/-- C2: for every raw event from the watched chat whose payload is a
plain message, the dispatched request carries the source message's
identifier and the event kind: `newMessage` for new-message events,
`editMessage` for edit events, and `oldMessage` for every
backfill-origin entry. -/
theorem c2_classify_kind_and_id
    (env : Env) (cfg : Config) (msg : Message) (ch : Channel)
    (hpeer : msg.peerID = .channel cfg.chatForWatch)
    (hres : (getChannel env cfg.chatForWatch).2 = .ok ch)
    (hid : ch.id = cfg.chatForWatch) :
    (handleNewChannelMessage env cfg (.message msg)).1.posts
        = [postRequest msg.message cfg.webhookUrl "newMessage" msg.id]
    ∧ (handleEditChannelMessage env cfg (.message msg)).1.posts
        = [postRequest msg.message cfg.webhookUrl "editMessage" msg.id]
    ∧ ∀ m rest, processPage env cfg (.message m :: rest)
        = postRequest m.message cfg.webhookUrl "oldMessage" m.id
            :: processPage env cfg rest := by
  rw [handleNew_char env cfg msg cfg.chatForWatch hpeer,
    handleEdit_char env cfg msg cfg.chatForWatch hpeer, hres]
  refine ⟨by simp [hid], by simp [hid], ?_⟩
  intro m rest
  rw [show processPage env cfg (.message m :: rest)
        = (sendMessage env m.message cfg.webhookUrl "oldMessage" m.id).1
          ++ processPage env cfg rest from rfl,
    sendMessage_requests, List.singleton_append]

/-- C2 witness: an edit of message 7 with text `Hello` in watched chat
42 dispatches the `editMessage` request with `external_id` 7; the same
holds for new and backfill entries. -/
theorem c2_witness :
    (handleNewChannelMessage envW cfgW
        (.message { id := 7, peerID := .channel 42, message := "Hello" })).1.posts
      = [postRequest "Hello" cfgW.webhookUrl "newMessage" 7]
    ∧ (handleEditChannelMessage envW cfgW
        (.message { id := 7, peerID := .channel 42, message := "Hello" })).1.posts
      = [postRequest "Hello" cfgW.webhookUrl "editMessage" 7]
    ∧ processPage envW cfgW [.message mW]
      = [postRequest mW.message cfgW.webhookUrl "oldMessage" mW.id] := by
  have h := c2_classify_kind_and_id envW cfgW
    { id := 7, peerID := .channel 42, message := "Hello" }
    { id := 42, accessHash := 0 } rfl rfl rfl
  exact ⟨h.1, h.2.1, h.2.2 mW []⟩

/-- C3: a delivery failure is contained: when resolution succeeded, each
live handler returns `nil` whatever the webhook answered, so the
dispatcher proceeds with the next update; the backfill inner loop issues
one POST per plain entry regardless of earlier delivery outcomes, and
the backfill loop's control flow (fetch trace and outcome) is
independent of the webhook's answers. -/
theorem c3_delivery_error_isolated :
    (∀ env cfg msg cid ch, msg.peerID = .channel cid →
        (getChannel env cid).2 = .ok ch →
        (handleNewChannelMessage env cfg (.message msg)).2 = .ok
        ∧ (handleEditChannelMessage env cfg (.message msg)).2 = .ok)
    ∧ (∀ env cfg ev rest t, dispatchUpdate env cfg ev = (t, .ok) →
        (processLiveEvents env cfg (ev :: rest)).1.posts
          = t.posts ++ (processLiveEvents env cfg rest).1.posts)
    ∧ (∀ env cfg msgs,
        (processPage env cfg msgs).length = msgs.countP isPlainMessage)
    ∧ (∀ (env : Env) (p q : WebhookRequest → PostResult) (cfg : Config)
          (fuel : Nat) (off : Int),
        (backfillLoop { env with post := p } cfg fuel off).1.fetches
            = (backfillLoop { env with post := q } cfg fuel off).1.fetches
        ∧ (backfillLoop { env with post := p } cfg fuel off).2
            = (backfillLoop { env with post := q } cfg fuel off).2) := by
  refine ⟨?_, ?_, ?_, ?_⟩
  · intro env cfg msg cid ch hpeer hres
    exact handle_ok_and_resolves env cfg msg cid ch hpeer hres
  · intro env cfg ev rest t h
    rw [processLiveEvents_cons_ok env cfg ev rest t h]
  · intro env cfg msgs
    exact processPage_length_countP env cfg msgs
  · intro env p q cfg fuel off
    exact backfillLoop_post_independent env p q cfg fuel off

/-- C3 witness: with a webhook that always answers 500, the handler
still returns `nil`, the backfill page still posts once per plain entry,
and the loop outcome matches the all-200 run. -/
theorem c3_witness :
    (handleNewChannelMessage env500W cfgW (.message mW)).2 = .ok
    ∧ (processPage env500W cfgW [.messageService 5 (.channel 42), .message mW]).length
        = ([.messageService 5 (.channel 42), .message mW] : List MessageClass).countP
            isPlainMessage
    ∧ (backfillLoop { envW with post := post500W } cfgW 3 0).2
        = (backfillLoop { envW with post := postOkW } cfgW 3 0).2 :=
  ⟨(c3_delivery_error_isolated.1 env500W cfgW mW 42 { id := 42, accessHash := 0 } rfl rfl).1,
   c3_delivery_error_isolated.2.2.1 env500W cfgW _,
   (c3_delivery_error_isolated.2.2.2 envW post500W postOkW cfgW 3 0).2⟩

end TgWatcher

namespace TgWatcher

/-- C4 counterexample: a history of exactly 100 messages (one full page)
with page size 100 makes the paginator issue 2 fetches — the second one
returns the empty short page — while ceil(100/100) = 1. -/
theorem c4_counterexample :
    hist100W.length = 100
    ∧ (fetchAndProcessMessages (envOfHist hist100W resolveW postOkW) cfgW 2).result
        = .done
    ∧ (fetchAndProcessMessages (envOfHist hist100W resolveW postOkW) cfgW
        2).backfill.fetches.length = 2
    ∧ (100 + 100 - 1) / 100 = 1
    ∧ (fetchAndProcessMessages (envOfHist hist100W resolveW postOkW) cfgW
        2).backfill.fetches.length ≠ (100 + 100 - 1) / 100 := by decide

/-- C4 (amended): with the page size fixed at 100 by the code, a
backfill over an unchanged all-plain-message history of `N` messages
(strictly decreasing positive IDs) terminates after exactly
`N / 100 + 1` page fetches — equal to `ceil(N/100)` when 100 does not
divide `N`, and one more than `ceil(N/100)` when it does (including one
fetch for `N = 0`) — the last page being short, with no further fetch
afterwards. -/
theorem c4_amended_fetch_count (hist : List Message)
    (resolve : Int → Except String (List ChatClass)) (post : WebhookRequest → PostResult)
    (cfg : Config) (fuel : Nat) (ch : Channel)
    (hres : (getChannel (envOfHist hist resolve post) cfg.chatForWatch).2 = .ok ch)
    (hsort : hist.Pairwise (fun a b => b.id < a.id)) (hpos : PosIds hist)
    (hfuel : hist.length / 100 + 1 ≤ fuel) :
    (fetchAndProcessMessages (envOfHist hist resolve post) cfg fuel).result = .done
    ∧ (fetchAndProcessMessages (envOfHist hist resolve post) cfg
        fuel).backfill.fetches.length = hist.length / 100 + 1
    ∧ (hist.length % 100 ≠ 0 →
        hist.length / 100 + 1 = (hist.length + 100 - 1) / 100) := by
  obtain ⟨tl, h1, h2, h3, _, _, _, _⟩ :=
    backfillLoop_run hist resolve post cfg fuel 0 hist hsort hpos
      List.suffix_rfl (by simp [sel]) (by omega)
  rw [fetchAndProcess_ok _ _ _ ch hres]
  refine ⟨h2, ?_, ?_⟩
  · rw [h1]; simp [h3]
  · intro h; omega

/-- C4 witness: a 3-message history is fetched in a single page. -/
theorem c4_witness :
    (fetchAndProcessMessages (envOfHist hist3W resolveW postOkW) cfgW 1).result = .done
    ∧ (fetchAndProcessMessages (envOfHist hist3W resolveW postOkW) cfgW
        1).backfill.fetches.length = hist3W.length / 100 + 1
    ∧ (hist3W.length % 100 ≠ 0 →
        hist3W.length / 100 + 1 = (hist3W.length + 100 - 1) / 100) :=
  c4_amended_fetch_count hist3W resolveW postOkW cfgW 1 { id := 42, accessHash := 0 }
    rfl (by decide) (by decide) (by decide)

/-- C7: over the page model of an unchanged all-plain-message history
with strictly decreasing positive IDs, the backfill cursor starts at
offsetID 0, every consecutive pair of fetches comes from a full page
whose last (oldest) message ID is the next cursor, and the cursor is
strictly decreasing across successive pages. -/
theorem c7_cursor_monotone (hist : List Message)
    (resolve : Int → Except String (List ChatClass)) (post : WebhookRequest → PostResult)
    (cfg : Config) (fuel : Nat) (ch : Channel)
    (hres : (getChannel (envOfHist hist resolve post) cfg.chatForWatch).2 = .ok ch)
    (hsort : hist.Pairwise (fun a b => b.id < a.id)) (hpos : PosIds hist)
    (hfuel : hist.length / 100 + 1 ≤ fuel) :
    (fetchAndProcessMessages (envOfHist hist resolve post) cfg
        fuel).backfill.fetches.head? = some 0
    ∧ ((fetchAndProcessMessages (envOfHist hist resolve post) cfg
        fuel).backfill.fetches.tail).Chain' (fun a b => b < a)
    ∧ ((fetchAndProcessMessages (envOfHist hist resolve post) cfg
        fuel).backfill.fetches).Chain' (advStep hist) := by
  obtain ⟨tl, h1, _, _, _, h5, h6, _⟩ :=
    backfillLoop_run hist resolve post cfg fuel 0 hist hsort hpos
      List.suffix_rfl (by simp [sel]) (by omega)
  rw [fetchAndProcess_ok _ _ _ ch hres]
  simp only [h1]
  exact ⟨rfl, h5, h6⟩

/-- C7 witness: a 101-message history takes two pages; the cursor trace
is `[0, 2]`: it starts at 0, advances to the oldest ID (2) of the full
first page, and is strictly decreasing after the start. -/
theorem c7_witness :
    (fetchAndProcessMessages (envOfHist hist101W resolveW postOkW) cfgW
        2).backfill.fetches.head? = some 0
    ∧ ((fetchAndProcessMessages (envOfHist hist101W resolveW postOkW) cfgW
        2).backfill.fetches.tail).Chain' (fun a b => b < a)
    ∧ ((fetchAndProcessMessages (envOfHist hist101W resolveW postOkW) cfgW
        2).backfill.fetches).Chain' (advStep hist101W) :=
  c7_cursor_monotone hist101W resolveW postOkW cfgW 2 { id := 42, accessHash := 0 }
    rfl (by decide) (by decide) (by decide)

end TgWatcher

namespace TgWatcher

/-- C6: evidence of the code bug.  A live event whose payload is not a
plain message is not skipped: both handlers panic (the discarded-ok type
assertion leaves `msg = nil` and `msg.GetPeerID()` dereferences it).  The
backfill inner loop does skip non-plain entries and continue, but when
the last entry of a full page is non-plain, the unchecked
`.(*tg.Message)` assertion at the cursor advance panics too. -/
theorem c6_nonplain_payload_panics :
    (handleEditChannelMessage envW cfgW (.messageService 11 (.channel 42))).2 = .panic
    ∧ (handleNewChannelMessage envW cfgW (.messageEmpty 12)).2 = .panic
    ∧ processPage envW cfgW [.messageService 11 (.channel 42), .message mW]
        = [postRequest mW.message cfgW.webhookUrl "oldMessage" mW.id]
    ∧ (backfillLoop envSvcW cfgW 5 0).2 = .panic := by decide

/-- C10 counterexample: a run of just two live events from the watched
chat performs two channel resolutions — one per event — so the watched
chat is not resolved at most once per process run. -/
theorem c10_counterexample :
    (processLiveEvents envW cfgW
        [.newChannelMessage (.message { id := 7, peerID := .channel 42, message := "a" }),
         .editChannelMessage (.message { id := 8, peerID := .channel 42, message := "b" })]
      ).1.resolves.length = 2
    ∧ ¬ ((processLiveEvents envW cfgW
        [.newChannelMessage (.message { id := 7, peerID := .channel 42, message := "a" }),
         .editChannelMessage (.message { id := 8, peerID := .channel 42, message := "b" })]
      ).1.resolves.length ≤ 1) := by decide

/-- C10 (amended): there is no cache — the watched chat is re-resolved
on every incoming live event (each handler invocation performs exactly
one `getChannel` call with the event's own channel ID), and each
backfill run performs its own single resolution of the watched chat at
start. -/
theorem c10_amended_resolve_per_event :
    (∀ env cfg msg cid, msg.peerID = .channel cid →
        (handleNewChannelMessage env cfg (.message msg)).1.resolves = [cid]
        ∧ (handleEditChannelMessage env cfg (.message msg)).1.resolves = [cid])
    ∧ (∀ env cfg fuel,
        (fetchAndProcessMessages env cfg fuel).resolves = [cfg.chatForWatch])
    ∧ (∀ env cfg events,
        (∀ ev ∈ events, ∃ msg cid,
            (ev = .newChannelMessage (.message msg)
              ∨ ev = .editChannelMessage (.message msg))
            ∧ msg.peerID = .channel cid) →
        (∀ cid : Int, ∃ ch rest,
            env.channelsGetChannels cid = Except.ok (.channel ch :: rest)) →
        (processLiveEvents env cfg events).1.resolves.length = events.length) := by
  refine ⟨?_, ?_, ?_⟩
  · intro env cfg msg cid hpeer
    exact handle_resolves env cfg msg cid hpeer
  · intro env cfg fuel
    unfold fetchAndProcessMessages
    rw [getChannel_pair env cfg.chatForWatch]
    cases (getChannel env cfg.chatForWatch).2 with
    | error e => rfl
    | ok ch => rfl
  · intro env cfg events
    induction events with
    | nil => intro _ _; rfl
    | cons ev rest ih =>
      intro hplain hres
      obtain ⟨msg, cid, hev, hpeer⟩ := hplain ev (List.mem_cons_self ev rest)
      obtain ⟨ch, cs, hok⟩ := hres cid
      have hchan := getChannel_ok_of env cid ch cs hok
      have hok2 := handle_ok_and_resolves env cfg msg cid ch hpeer hchan
      have hresv := handle_resolves env cfg msg cid hpeer
      have htail := ih (fun e he => hplain e (List.mem_cons_of_mem _ he)) hres
      rcases hev with hev | hev <;> subst hev
      · have hd : dispatchUpdate env cfg (.newChannelMessage (.message msg))
            = ((handleNewChannelMessage env cfg (.message msg)).1, .ok) := by
          show handleNewChannelMessage env cfg (.message msg) = _
          rw [← hok2.1]
        rw [processLiveEvents_cons_ok env cfg _ rest _ hd]
        simp only [List.length_append, List.length_cons, List.length_nil, hresv.1, htail]
        omega
      · have hd : dispatchUpdate env cfg (.editChannelMessage (.message msg))
            = ((handleEditChannelMessage env cfg (.message msg)).1, .ok) := by
          show handleEditChannelMessage env cfg (.message msg) = _
          rw [← hok2.2]
        rw [processLiveEvents_cons_ok env cfg _ rest _ hd]
        simp only [List.length_append, List.length_cons, List.length_nil, hresv.2, htail]
        omega

/-- C10 witness: a three-event live run with the faithful resolver
performs three resolutions, and a backfill run resolves the watched chat
exactly once. -/
theorem c10_witness :
    (processLiveEvents envW cfgW
        [.newChannelMessage (.message { id := 1, peerID := .channel 42, message := "a" }),
         .editChannelMessage (.message { id := 2, peerID := .channel 42, message := "b" }),
         .newChannelMessage (.message { id := 3, peerID := .channel 5, message := "c" })]
      ).1.resolves.length = 3
    ∧ (fetchAndProcessMessages envW cfgW 1).resolves = [cfgW.chatForWatch] := by
  constructor
  · refine c10_amended_resolve_per_event.2.2 envW cfgW _ ?_ ?_
    · intro ev hev
      simp only [List.mem_cons, List.not_mem_nil, or_false] at hev
      rcases hev with h | h | h <;> subst h
      · exact ⟨_, 42, Or.inl rfl, rfl⟩
      · exact ⟨_, 42, Or.inr rfl, rfl⟩
      · exact ⟨_, 5, Or.inl rfl, rfl⟩
    · intro cid
      exact ⟨{ id := cid, accessHash := 0 }, [], rfl⟩
  · exact c10_amended_resolve_per_event.2.1 envW cfgW 1

end TgWatcher
